import Mathlib

/-!
# Verification of the quantum-inspired portfolio optimizer

Shallow embedding of `src/services/quantum/optimizer.ts` (class `QuantumOptimizer`)
and its data model (`src/services/quantum/types.ts`, `src/types/trading.ts`).

JavaScript numbers are modelled by `JsNum`: an exact rational together with the
IEEE special values `NaN`, `Infinity` and `-Infinity`, with the JS semantics of
arithmetic, comparison, `Math.max/min/abs/sqrt` on those values (rounding of
finite values is not modelled; finite arithmetic is exact).  The transcendental
functions `Math.cos`, `Math.sin`, `Math.sqrt` (on finite non-negative input),
the remainder on finite values, and the constant `Math.PI` are not computable on
rationals, so they are supplied as an abstract parameter record `MathOps`;
theorems that need analytic facts about them (such as cos² + sin² = 1) take the
fact as a hypothesis.  `Math.random()` is modelled by an explicit stream
`ℕ → ℚ` of draws together with a cursor threaded through the state.

Out-of-bounds array reads (`undefined` flowing into arithmetic, which JS turns
into `NaN`) are modelled by `jsGet` returning `JsNum.nan`.
-/

set_option maxHeartbeats 1000000

/-- A JavaScript number: `NaN`, `Infinity`, `-Infinity`, or a finite value
(modelled as an exact rational). -/
inductive JsNum where
  | nan
  | pinf
  | ninf
  | fin (x : ℚ)
  deriving DecidableEq, Repr

namespace JsNum

/-- JS addition, with IEEE special-value behaviour
(`NaN` absorbs, `Infinity + -Infinity = NaN`). -/
def add : JsNum → JsNum → JsNum
  | nan, _ => nan
  | _, nan => nan
  | pinf, pinf => pinf
  | pinf, ninf => nan
  | pinf, fin _ => pinf
  | ninf, pinf => nan
  | ninf, ninf => ninf
  | ninf, fin _ => ninf
  | fin _, pinf => pinf
  | fin _, ninf => ninf
  | fin x, fin y => fin (x + y)

/-- JS negation. -/
def neg : JsNum → JsNum
  | nan => nan
  | pinf => ninf
  | ninf => pinf
  | fin x => fin (-x)

/-- JS subtraction: `a - b = a + (-b)` (matches IEEE: `Inf - Inf = NaN`). -/
def sub (a b : JsNum) : JsNum := add a (neg b)

/-- JS multiplication (`0 * Infinity = NaN`, signs propagate). -/
def mul : JsNum → JsNum → JsNum
  | nan, _ => nan
  | _, nan => nan
  | pinf, pinf => pinf
  | pinf, ninf => ninf
  | ninf, pinf => ninf
  | ninf, ninf => pinf
  | pinf, fin y => if y = 0 then nan else if 0 < y then pinf else ninf
  | ninf, fin y => if y = 0 then nan else if 0 < y then ninf else pinf
  | fin x, pinf => if x = 0 then nan else if 0 < x then pinf else ninf
  | fin x, ninf => if x = 0 then nan else if 0 < x then ninf else pinf
  | fin x, fin y => fin (x * y)

/-- JS division.  Division of a non-zero finite value by zero gives a signed
infinity (the `+0` case of JS; signed zero is not modelled), `0 / 0 = NaN`,
finite / infinite = 0, infinite / infinite = NaN. -/
def div : JsNum → JsNum → JsNum
  | nan, _ => nan
  | _, nan => nan
  | pinf, pinf => nan
  | pinf, ninf => nan
  | ninf, pinf => nan
  | ninf, ninf => nan
  | pinf, fin y => if 0 ≤ y then pinf else ninf
  | ninf, fin y => if 0 ≤ y then ninf else pinf
  | fin _, pinf => fin 0
  | fin _, ninf => fin 0
  | fin x, fin y =>
      if y = 0 then (if x = 0 then nan else if 0 < x then pinf else ninf)
      else fin (x / y)

instance : Add JsNum := ⟨add⟩
instance : Neg JsNum := ⟨neg⟩
instance : Sub JsNum := ⟨sub⟩
instance : Mul JsNum := ⟨mul⟩
instance : Div JsNum := ⟨div⟩
instance : Zero JsNum := ⟨fin 0⟩
instance : One JsNum := ⟨fin 1⟩

/-- JS strict `<` as a boolean (any comparison with `NaN` is `false`). -/
def ltB : JsNum → JsNum → Bool
  | nan, _ => false
  | _, nan => false
  | pinf, _ => false
  | ninf, pinf => true
  | ninf, ninf => false
  | ninf, fin _ => true
  | fin _, pinf => true
  | fin _, ninf => false
  | fin x, fin y => decide (x < y)

/-- JS strict `>` as a boolean. -/
def gtB (a b : JsNum) : Bool := ltB b a

/-- JS `<=` as a boolean (`false` whenever `NaN` is involved). -/
def leB : JsNum → JsNum → Bool
  | nan, _ => false
  | _, nan => false
  | pinf, pinf => true
  | pinf, _ => false
  | ninf, _ => true
  | fin _, pinf => true
  | fin _, ninf => false
  | fin x, fin y => decide (x ≤ y)

/-- JS `>=` as a boolean. -/
def geB (a b : JsNum) : Bool := leB b a

/-- `Math.abs`. -/
def abs : JsNum → JsNum
  | nan => nan
  | pinf => pinf
  | ninf => pinf
  | fin x => fin |x|

/-- `Math.max` of two values (`NaN` if either argument is `NaN`). -/
def max2 (a b : JsNum) : JsNum :=
  if a = nan ∨ b = nan then nan else if ltB a b then b else a

/-- `Math.min` of two values (`NaN` if either argument is `NaN`). -/
def min2 (a b : JsNum) : JsNum :=
  if a = nan ∨ b = nan then nan else if ltB b a then b else a

theorem add_def (a b : JsNum) : a + b = add a b := rfl
theorem mul_def (a b : JsNum) : a * b = mul a b := rfl
theorem sub_def (a b : JsNum) : a - b = sub a b := rfl
theorem div_def (a b : JsNum) : a / b = div a b := rfl
theorem zero_def : (0 : JsNum) = fin 0 := rfl

@[simp] theorem nan_add (a : JsNum) : nan + a = nan := by cases a <;> rfl

@[simp] theorem add_nan (a : JsNum) : a + nan = nan := by cases a <;> rfl

@[simp] theorem nan_mul (a : JsNum) : nan * a = nan := by cases a <;> rfl

@[simp] theorem mul_nan (a : JsNum) : a * nan = nan := by cases a <;> rfl

@[simp] theorem nan_div (a : JsNum) : nan / a = nan := by cases a <;> rfl

@[simp] theorem div_nan (a : JsNum) : a / nan = nan := by cases a <;> rfl

@[simp] theorem sub_nan (a : JsNum) : a - nan = nan := by cases a <;> rfl

@[simp] theorem nan_sub (a : JsNum) : nan - a = nan := by cases a <;> rfl

@[simp] theorem fin_add_fin (x y : ℚ) : fin x + fin y = fin (x + y) := rfl

@[simp] theorem fin_mul_fin (x y : ℚ) : fin x * fin y = fin (x * y) := rfl

@[simp] theorem fin_sub_fin (x y : ℚ) : fin x - fin y = fin (x - y) := by
  show fin (x + -y) = fin (x - y)
  rw [sub_eq_add_neg]

theorem jsAdd_comm (a b : JsNum) : a + b = b + a := by
  cases a <;> cases b <;> simp [add_def, add, Rat.add_comm]

theorem jsAdd_assoc (a b c : JsNum) : a + b + c = a + (b + c) := by
  cases a <;> cases b <;> cases c <;> simp [add_def, add, Rat.add_assoc]

@[simp] theorem jsAdd_zero (a : JsNum) : a + 0 = a := by
  cases a <;> simp [zero_def, add_def, add]

@[simp] theorem jsZero_add (a : JsNum) : (0 : JsNum) + a = a := by
  cases a <;> simp [zero_def, add_def, add]

instance : AddCommMonoid JsNum where
  add_assoc := jsAdd_assoc
  zero_add := jsZero_add
  add_zero := jsAdd_zero
  add_comm := jsAdd_comm
  nsmul := nsmulRec

end JsNum

/-- The analytic primitives of the JS `Math` library on finite values.  They
are not computable on exact rationals, so the model is parametric in them; the
actual runtime functions are one admissible instantiation (up to rounding).
`cos`/`sin`/`sqrt` give the value on a finite argument; `fmod x y` is the JS
remainder `x % y` for finite `x` and finite non-zero `y`; `pi` is `Math.PI`. -/
structure MathOps where
  cos : ℚ → ℚ
  sin : ℚ → ℚ
  sqrt : ℚ → ℚ
  fmod : ℚ → ℚ → ℚ
  pi : ℚ

namespace JsNum

/-- `Math.sqrt` on a JS number: `NaN` on `NaN`, negative input and `-Infinity`;
`Infinity` on `Infinity`; the abstract `sqrt` on finite non-negative input. -/
def sqrtJ (ops : MathOps) : JsNum → JsNum
  | nan => nan
  | pinf => pinf
  | ninf => nan
  | fin x => if x < 0 then nan else fin (ops.sqrt x)

/-- `Math.cos` on a JS number (`NaN` on any non-finite input). -/
def cosJ (ops : MathOps) : JsNum → JsNum
  | fin x => fin (ops.cos x)
  | _ => nan

/-- `Math.sin` on a JS number (`NaN` on any non-finite input). -/
def sinJ (ops : MathOps) : JsNum → JsNum
  | fin x => fin (ops.sin x)
  | _ => nan

/-- The JS remainder operator `%`: `NaN` when the dividend is non-finite or the
divisor is zero or `NaN`; `x % ±Infinity = x` for finite `x`; otherwise the
abstract finite remainder. -/
def modJ (ops : MathOps) : JsNum → JsNum → JsNum
  | nan, _ => nan
  | pinf, _ => nan
  | ninf, _ => nan
  | fin _, nan => nan
  | fin x, pinf => fin x
  | fin x, ninf => fin x
  | fin x, fin y => if y = 0 then nan else fin (ops.fmod x y)

end JsNum

/-- Read index `i` of a JS array of numbers.  An out-of-bounds read yields
`undefined`, which behaves as `NaN` in every arithmetic context in which the
source uses it, so it is modelled as `JsNum.nan`. -/
def jsGet (l : List JsNum) (i : ℕ) : JsNum := l.getD i JsNum.nan

@[simp] theorem jsGet_nil (i : ℕ) : jsGet [] i = JsNum.nan := by
  cases i <;> rfl

/- ----------------------------------------------------------------------
   Data model (`src/services/quantum/types.ts`, `src/types/trading.ts`)
   ---------------------------------------------------------------------- -/

namespace Q

/-- `Complex` from `types.ts`. -/
structure Complex where
  real : JsNum
  imaginary : JsNum
  deriving DecidableEq, Repr

/-- `QuantumState` from `types.ts`: one (amplitude, phase) pair. -/
structure QuantumState where
  amplitude : Complex
  phase : JsNum
  deriving DecidableEq, Repr

/-- `ParticleState` from `types.ts`. -/
structure ParticleState where
  position : List JsNum
  velocity : List JsNum
  bestPosition : List JsNum
  bestFitness : JsNum
  deriving DecidableEq, Repr

/-- `Asset` from `trading.ts`. -/
structure Asset where
  symbol : String
  price : JsNum
  volume : JsNum
  volatility : JsNum
  deriving DecidableEq, Repr

/-- The `riskBudget` field of `OptimizationConstraints`. -/
structure RiskBudget where
  maxVolatility : JsNum
  maxDrawdown : JsNum
  minSharpeRatio : JsNum
  deriving DecidableEq, Repr

/-- `OptimizationConstraints` from `types.ts`, restricted to the fields the
optimizer reads (`riskBudget`) plus the declared-but-unused position bounds. -/
structure OptimizationConstraints where
  minPositions : JsNum
  maxPositions : JsNum
  riskBudget : RiskBudget
  deriving DecidableEq, Repr

/-- `MarketRegime` from `types.ts` (informational only; the optimizer never
reads it). -/
structure MarketRegime where
  type : String
  confidence : JsNum
  deriving DecidableEq, Repr

/-- The `historicalData` field of `OptimizationContext`. -/
structure HistoricalData where
  returns : List (List JsNum)
  volatility : List JsNum
  correlation : List (List JsNum)
  deriving DecidableEq, Repr

/-- `OptimizationContext` from `types.ts`. -/
structure OptimizationContext where
  assets : List Asset
  constraints : OptimizationConstraints
  marketRegime : MarketRegime
  historicalData : HistoricalData
  deriving DecidableEq, Repr

/-- `QuantumConfig` as a caller may supply it: a JS object whose fields may be
absent (`none` models `undefined`). -/
structure QuantumConfigIn where
  particles : Option JsNum
  iterations : Option JsNum
  convergenceThreshold : Option JsNum
  deriving DecidableEq, Repr

/-- The configuration actually stored by the constructor. -/
structure QuantumConfig where
  particles : JsNum
  iterations : JsNum
  convergenceThreshold : JsNum
  deriving DecidableEq, Repr

/-- `OptimizationResult.metrics` from `types.ts`. -/
structure ResultMetrics where
  sharpeRatio : JsNum
  volatility : JsNum
  maxDrawdown : JsNum
  deriving DecidableEq, Repr

/-- `OptimizationResult` from `types.ts`. -/
structure OptimizationResult where
  allocation : List JsNum
  expectedReturn : JsNum
  confidence : JsNum
  metrics : ResultMetrics
  deriving DecidableEq, Repr

/-- The mutable fields of a `QuantumOptimizer` object. -/
structure OptimizerState where
  config : QuantumConfig
  particles : List ParticleState
  quantumStates : List (List QuantumState)
  globalBestPosition : List JsNum
  globalBestFitness : JsNum
  deriving DecidableEq, Repr

/-- The machine state of one `optimize` call: the optimizer object's fields,
the context the caller passed (threaded so that any mutation of it by the
optimizer would be observable), and the cursor into the random stream. -/
structure MState where
  opt : OptimizerState
  ctx : OptimizationContext
  cursor : ℕ
  deriving DecidableEq, Repr

/-- The stream of values produced by successive `Math.random()` calls. -/
def RandStream : Type := ℕ → ℚ

/- ----------------------------------------------------------------------
   The optimizer (`src/services/quantum/optimizer.ts`)
   ---------------------------------------------------------------------- -/

/-- JS `x || d` for a possibly-absent numeric field: `undefined`, `NaN` and `0`
are falsy and give the default; every other number (including negative and
infinite values) is kept. -/
def jsOr (v : Option JsNum) (d : JsNum) : JsNum :=
  match v with
  | none => d
  | some w => if w = JsNum.nan ∨ w = JsNum.fin 0 then d else w

/-- The `QuantumOptimizer` constructor: applies `||`-defaults of 100 particles,
1000 iterations and threshold 1e-6, and initializes the mutable fields
(`particles = []`, `quantumStates = []`, `globalBestPosition = []`,
`globalBestFitness = -Infinity`).  It performs no validation. -/
def construct (cfg : QuantumConfigIn) : OptimizerState :=
  { config :=
      { particles := jsOr cfg.particles (JsNum.fin 100),
        iterations := jsOr cfg.iterations (JsNum.fin 1000),
        convergenceThreshold := jsOr cfg.convergenceThreshold (JsNum.fin (1 / 1000000)) },
    particles := [],
    quantumStates := [],
    globalBestPosition := [],
    globalBestFitness := JsNum.ninf }

/-- Length of the JS array `Array(n)`: meaningful when `n` is a finite
non-negative integer (elsewhere JS throws a `RangeError`, which no claim
exercises; the model returns 0 there). -/
def jsArrayLen : JsNum → ℕ
  | JsNum.fin q => if q.den = 1 ∧ 0 ≤ q.num then q.num.toNat else 0
  | _ => 0

/-- `clamp(value, min, max) = Math.max(min, Math.min(max, value))`. -/
def clamp (value lo hi : JsNum) : JsNum := JsNum.max2 lo (JsNum.min2 hi value)

/-- `Math.sqrt(c.real ** 2 + c.imaginary ** 2)`, the amplitude magnitude used
both by `calculateQuantumInfluence` and by `calculateConfidence`. -/
def ampMagnitude (ops : MathOps) (c : Complex) : JsNum :=
  JsNum.sqrtJ ops (c.real * c.real + c.imaginary * c.imaginary)

/-- `calculateQuantumInfluence`: magnitude times `Math.cos(phase)`. -/
def calculateQuantumInfluence (ops : MathOps) (state : QuantumState) : JsNum :=
  ampMagnitude ops state.amplitude * JsNum.cosJ ops state.phase

/-- JS `arr.reduce((a, b) => a + b)` with no initial value.  On an empty array
JS throws a `TypeError`; the model returns `NaN` there (no claim reaches that
case with a meaningful value). -/
def jsReduceAdd : List JsNum → JsNum
  | [] => JsNum.nan
  | h :: t => t.foldl (fun a b => a + b) h

/-- `calculateExpectedReturn`: fold over the allocation with index, adding
`weight * mean(returns[i])` where the mean is sum of the row over its length. -/
def calculateExpectedReturn (allocation : List JsNum) (returns : List (List JsNum)) : JsNum :=
  allocation.enum.foldl
    (fun sum iw =>
      let row := returns.getD iw.1 []
      let assetReturn := jsReduceAdd row / JsNum.fin (row.length : ℚ)
      sum + iw.2 * assetReturn)
    0

/-- `calculatePortfolioVolatility`: the double loop accumulating
`allocation[i] * allocation[j] * volatility[i] * volatility[j] *
correlation[i][j]`, then `Math.sqrt`. -/
def calculatePortfolioVolatility (ops : MathOps) (allocation volatility : List JsNum)
    (correlation : List (List JsNum)) : JsNum :=
  let n := allocation.length
  let portfolioVariance :=
    (List.range n).foldl
      (fun acc i =>
        (List.range n).foldl
          (fun acc2 j =>
            acc2 + jsGet allocation i * jsGet allocation j * jsGet volatility i *
              jsGet volatility j * jsGet (correlation.getD i []) j)
          acc)
      0
  JsNum.sqrtJ ops portfolioVariance

/-- `calculateFitness`: Sharpe ratio with risk-free rate 0.02, minus the
volatility-excess and Sharpe-deficit penalties (each scaled by 100). -/
def calculateFitness (ops : MathOps) (allocation : List JsNum)
    (ctx : OptimizationContext) : JsNum :=
  let expectedReturn := calculateExpectedReturn allocation ctx.historicalData.returns
  let portfolioVolatility := calculatePortfolioVolatility ops allocation
    ctx.historicalData.volatility ctx.historicalData.correlation
  let sharpeRatio := (expectedReturn - JsNum.fin (2 / 100)) / portfolioVolatility
  let penalty0 : JsNum := 0
  let penalty1 :=
    if JsNum.gtB portfolioVolatility ctx.constraints.riskBudget.maxVolatility then
      penalty0 + (portfolioVolatility - ctx.constraints.riskBudget.maxVolatility) * JsNum.fin 100
    else penalty0
  let penalty2 :=
    if JsNum.ltB sharpeRatio ctx.constraints.riskBudget.minSharpeRatio then
      penalty1 + (ctx.constraints.riskBudget.minSharpeRatio - sharpeRatio) * JsNum.fin 100
    else penalty1
  sharpeRatio - penalty2

/-- `normalizeAllocation`: divide every entry by the entry sum
(`reduce((a, b) => a + b, 0)`). -/
def normalizeAllocation (allocation : List JsNum) : List JsNum :=
  let sum := allocation.foldl (fun a b => a + b) 0
  allocation.map (fun value => value / sum)

/-- `generateRandomAllocation`: `size` fresh uniform draws, then
`normalizeAllocation`.  The `constraints` parameter is accepted and unused,
exactly as in the source.  Returns the allocation and the advanced cursor. -/
def generateRandomAllocation (r : RandStream) (size : ℕ)
    (_constraints : OptimizationConstraints) (k : ℕ) : List JsNum × ℕ :=
  let allocation := (List.range size).map (fun t => JsNum.fin (r (k + t)))
  (normalizeAllocation allocation, k + size)

/-- `initializeQuantumStates(dimension)`: a `particles × dimension` grid of
fresh states; per cell the draws are amplitude.real, amplitude.imaginary,
then phase (`Math.random() * 2 * Math.PI`), in call order. -/
def initializeQuantumStates (ops : MathOps) (r : RandStream) (dimension : ℕ)
    (s : MState) : MState :=
  let pcount := jsArrayLen s.opt.config.particles
  let states := (List.range pcount).map (fun i =>
    (List.range dimension).map (fun j =>
      let base := s.cursor + 3 * (i * dimension + j)
      { amplitude := { real := JsNum.fin (r base), imaginary := JsNum.fin (r (base + 1)) },
        phase := JsNum.fin (r (base + 2)) * JsNum.fin 2 * JsNum.fin ops.pi : QuantumState }))
  { s with opt := { s.opt with quantumStates := states },
           cursor := s.cursor + 3 * (pcount * dimension) }

/-- `initializeParticles`: each particle gets a fresh random allocation, zero
velocity, its own position as personal best, and personal best fitness
`-Infinity`. -/
def initializeParticles (r : RandStream) (s : MState) : MState :=
  let n := s.ctx.assets.length
  let pcount := jsArrayLen s.opt.config.particles
  let parts := (List.range pcount).map (fun i =>
    let pr := generateRandomAllocation r n s.ctx.constraints (s.cursor + i * n)
    { position := pr.1,
      velocity := List.replicate n (0 : JsNum),
      bestPosition := pr.1,
      bestFitness := JsNum.ninf : ParticleState })
  { s with opt := { s.opt with particles := parts }, cursor := s.cursor + pcount * n }

/-- One quantum state's evolution step given the draw `u`: the phase walks by
`u * Math.PI` modulo `2 * Math.PI` and the amplitude is rotated by the new
phase. -/
def evolveOneQuantumState (ops : MathOps) (u : ℚ) (state : QuantumState) : QuantumState :=
  let newPhase := JsNum.modJ ops (state.phase + JsNum.fin u * JsNum.fin ops.pi)
    (JsNum.fin 2 * JsNum.fin ops.pi)
  let newAmplitude : Complex :=
    { real := JsNum.cosJ ops newPhase * state.amplitude.real -
        JsNum.sinJ ops newPhase * state.amplitude.imaginary,
      imaginary := JsNum.sinJ ops newPhase * state.amplitude.real +
        JsNum.cosJ ops newPhase * state.amplitude.imaginary }
  { amplitude := newAmplitude, phase := newPhase }

/-- Evolve one row of quantum states (one particle), one draw per state. -/
def evolveRow (ops : MathOps) (r : RandStream) :
    List QuantumState → ℕ → List QuantumState × ℕ
  | [], k => ([], k)
  | state :: rest, k =>
    let state' := evolveOneQuantumState ops (r k) state
    let p := evolveRow ops r rest (k + 1)
    (state' :: p.1, p.2)

/-- Evolve the whole quantum grid, row by row. -/
def evolveRows (ops : MathOps) (r : RandStream) :
    List (List QuantumState) → ℕ → List (List QuantumState) × ℕ
  | [], k => ([], k)
  | row :: rest, k =>
    let p1 := evolveRow ops r row k
    let p2 := evolveRows ops r rest p1.2
    (p1.1 :: p2.1, p2.2)

/-- `evolveQuantumStates`. -/
def evolveQuantumStates (ops : MathOps) (r : RandStream) (s : MState) : MState :=
  let p := evolveRows ops r s.opt.quantumStates s.cursor
  { s with opt := { s.opt with quantumStates := p.1 }, cursor := p.2 }

/-- The default used when `quantumStates[i][j]` is read out of bounds (JS would
fail on `undefined.amplitude`; no claim reaches this). -/
def nanQuantumState : QuantumState :=
  { amplitude := { real := JsNum.nan, imaginary := JsNum.nan }, phase := JsNum.nan }

/-- The per-particle body of `updateParticles`: velocity update with inertia
0.7 and cognitive/social weights 1.5 (two draws per dimension, cognitive draw
first), then position update with the quantum influence, clamped to `[0, 1]`
and re-normalized.  `bestPosition`/`bestFitness` are carried over by the
spread.  Returns the updated particle and the advanced cursor. -/
def updateOneParticle (ops : MathOps) (r : RandStream)
    (globalBestPosition : List JsNum) (qrow : List QuantumState)
    (particle : ParticleState) (k : ℕ) : ParticleState × ℕ :=
  let inertiaWeight := JsNum.fin (7 / 10)
  let cognitiveWeight := JsNum.fin (3 / 2)
  let socialWeight := JsNum.fin (3 / 2)
  let newVelocity := particle.velocity.enum.map (fun jv =>
    let cognitive := cognitiveWeight * JsNum.fin (r (k + 2 * jv.1)) *
      (jsGet particle.bestPosition jv.1 - jsGet particle.position jv.1)
    let social := socialWeight * JsNum.fin (r (k + 2 * jv.1 + 1)) *
      (jsGet globalBestPosition jv.1 - jsGet particle.position jv.1)
    inertiaWeight * jv.2 + cognitive + social)
  let newPosition := particle.position.enum.map (fun jp =>
    let quantumInfluence := calculateQuantumInfluence ops (qrow.getD jp.1 nanQuantumState)
    clamp (jp.2 + jsGet newVelocity jp.1 + quantumInfluence) 0 1)
  let normalizedPosition := normalizeAllocation newPosition
  ({ particle with position := normalizedPosition, velocity := newVelocity },
   k + 2 * particle.velocity.length)

/-- Update the particles in order; particle `i` uses quantum row `i`. -/
def updateParticlesGo (ops : MathOps) (r : RandStream) (globalBestPosition : List JsNum)
    (qss : List (List QuantumState)) :
    List ParticleState → ℕ → ℕ → List ParticleState × ℕ
  | [], _i, k => ([], k)
  | particle :: rest, i, k =>
    let p1 := updateOneParticle ops r globalBestPosition (qss.getD i []) particle k
    let p2 := updateParticlesGo ops r globalBestPosition qss rest (i + 1) p1.2
    (p1.1 :: p2.1, p2.2)

/-- `updateParticles` (the `context` parameter of the source method is unused
by its body). -/
def updateParticles (ops : MathOps) (r : RandStream) (s : MState) : MState :=
  let p := updateParticlesGo ops r s.opt.globalBestPosition s.opt.quantumStates
    s.opt.particles 0 s.cursor
  { s with opt := { s.opt with particles := p.1 }, cursor := p.2 }

/-- Accumulator for the best-tracking pass of `evaluateParticles`. -/
structure EvalAcc where
  particles : List ParticleState
  globalBestPosition : List JsNum
  globalBestFitness : JsNum
  deriving DecidableEq, Repr

/-- One particle's evaluation: compute its fitness; on a strict personal-best
improvement overwrite the personal best, and nested inside, on a strict
global-best improvement overwrite the global best. -/
def evaluateStep (ops : MathOps) (ctx : OptimizationContext)
    (acc : EvalAcc) (particle : ParticleState) : EvalAcc :=
  let fitness := calculateFitness ops particle.position ctx
  if JsNum.gtB fitness particle.bestFitness then
    let particle' := { particle with bestFitness := fitness, bestPosition := particle.position }
    if JsNum.gtB fitness acc.globalBestFitness then
      { particles := acc.particles ++ [particle'],
        globalBestPosition := particle.position,
        globalBestFitness := fitness }
    else { acc with particles := acc.particles ++ [particle'] }
  else { acc with particles := acc.particles ++ [particle] }

/-- `evaluateParticles`: the sequential per-particle pass over the population. -/
def evaluateParticles (ops : MathOps) (s : MState) : MState :=
  let acc := s.opt.particles.foldl (evaluateStep ops s.ctx)
    { particles := [],
      globalBestPosition := s.opt.globalBestPosition,
      globalBestFitness := s.opt.globalBestFitness }
  { s with
    opt := { s.opt with
              particles := acc.particles,
              globalBestPosition := acc.globalBestPosition,
              globalBestFitness := acc.globalBestFitness } }

/-- `calculateConfidence`: clamp to `[0, 1]` the average over particles of the
average over dimensions of the amplitude magnitudes. -/
def calculateConfidence (ops : MathOps) (quantumStates : List (List QuantumState)) : JsNum :=
  let averageCoherence :=
    (quantumStates.foldl
      (fun sum particleStates =>
        let particleCoherence :=
          (particleStates.foldl (fun pSum state => pSum + ampMagnitude ops state.amplitude) 0) /
            JsNum.fin (particleStates.length : ℚ)
        sum + particleCoherence)
      0) / JsNum.fin (quantumStates.length : ℚ)
  clamp averageCoherence 0 1

/-- `calculateMaxDrawdown`: per-timestep weighted return series, then running
peak (from `-Infinity`) and maximum of `(peak - ret) / peak`. -/
def calculateMaxDrawdown (allocation : List JsNum) (ctx : OptimizationContext) : JsNum :=
  let returns := ctx.historicalData.returns
  let portfolioReturns := (returns.getD 0 []).enum.map (fun tp =>
    allocation.enum.foldl (fun sum ia =>
      sum + ia.2 * jsGet (returns.getD ia.1 []) tp.1) 0)
  let final := portfolioReturns.foldl
    (fun acc ret =>
      let peak := if JsNum.gtB ret acc.2 then ret else acc.2
      let drawdown := (peak - ret) / peak
      let maxDrawdown := if JsNum.gtB drawdown acc.1 then drawdown else acc.1
      (maxDrawdown, peak))
    ((0 : JsNum), JsNum.ninf)
  final.1

/-- `constructOptimizationResult`. -/
def constructOptimizationResult (ops : MathOps) (s : MState) : OptimizationResult :=
  { allocation := s.opt.globalBestPosition,
    expectedReturn := calculateExpectedReturn s.opt.globalBestPosition
      s.ctx.historicalData.returns,
    confidence := calculateConfidence ops s.opt.quantumStates,
    metrics :=
      { sharpeRatio := s.opt.globalBestFitness,
        volatility := calculatePortfolioVolatility ops s.opt.globalBestPosition
          s.ctx.historicalData.volatility s.ctx.historicalData.correlation,
        maxDrawdown := calculateMaxDrawdown s.opt.globalBestPosition s.ctx } }

/-- One iteration of the `optimize` while-loop body: quantum evolution, then
particle update, then evaluation. -/
def iterationBody (ops : MathOps) (r : RandStream) (s : MState) : MState :=
  evaluateParticles ops (updateParticles ops r (evolveQuantumStates ops r s))

/-- The fuel used to run the while-loop: for a finite cap `q` the loop performs
at most `⌈q⌉` iterations, so `⌈q⌉ + 1` units suffice to reproduce it exactly.
For an `Infinity` cap the JS loop need not terminate; the model stops
immediately there (no claim concerns an infinite cap), and for a `NaN` cap the
guard `iteration < NaN` is false at once. -/
def loopFuel : JsNum → ℕ
  | JsNum.fin q => (⌈q⌉).toNat + 1
  | _ => 0

/-- The `optimize` while-loop.  The guard is `iteration < config.iterations`
and the loop also stops, after an iteration, when
`Math.abs(globalBestFitness - previousBestFitness) < config.convergenceThreshold`.
Returns the final state and the number of iterations executed. -/
def loopGo (ops : MathOps) (r : RandStream) : ℕ → ℕ → JsNum → MState → MState × ℕ
  | 0, _iteration, _prev, s => (s, 0)
  | fuel + 1, iteration, prev, s =>
    if JsNum.ltB (JsNum.fin (iteration : ℚ)) s.opt.config.iterations then
      let s1 := iterationBody ops r s
      if JsNum.ltB (JsNum.abs (s1.opt.globalBestFitness - prev))
          s1.opt.config.convergenceThreshold then
        (s1, 1)
      else
        let p := loopGo ops r fuel (iteration + 1) s1.opt.globalBestFitness s1
        (p.1, p.2 + 1)
    else (s, 0)

/-- `optimize`: initialize the quantum grid (with `context.assets.length`
dimensions) and the particles, run the loop with `previousBestFitness`
starting at `-Infinity`, and build the result.  Returns the result, the final
machine state, and the number of loop iterations executed. -/
def optimize (ops : MathOps) (r : RandStream) (s : MState) :
    OptimizationResult × MState × ℕ :=
  let s1 := initializeQuantumStates ops r s.ctx.assets.length s
  let s2 := initializeParticles r s1
  let p := loopGo ops r (loopFuel s2.opt.config.iterations) 0 JsNum.ninf s2
  (constructOptimizationResult ops p.1, p.1, p.2)

/-- `new QuantumOptimizer(cfg)` followed by `optimize(ctx)` on a fresh random
stream. -/
def runOptimizer (ops : MathOps) (r : RandStream) (cfg : QuantumConfigIn)
    (ctx : OptimizationContext) : OptimizationResult × MState × ℕ :=
  optimize ops r { opt := construct cfg, ctx := ctx, cursor := 0 }

/-- The machine state at the start of the loop of a fresh
`new QuantumOptimizer(cfg).optimize(ctx)` call: constructor, then quantum-grid
and particle initialization. -/
def initState (ops : MathOps) (r : RandStream) (cfg : QuantumConfigIn)
    (ctx : OptimizationContext) : MState :=
  initializeParticles r (initializeQuantumStates ops r ctx.assets.length
    { opt := construct cfg, ctx := ctx, cursor := 0 })

/-- The machine state after `k` executed loop iterations of that run (the
loop's early-convergence exit only stops the run earlier; the states it visits
are exactly these). -/
def stateAfter (ops : MathOps) (r : RandStream) (cfg : QuantumConfigIn)
    (ctx : OptimizationContext) : ℕ → MState
  | 0 => initState ops r cfg ctx
  | k + 1 => iterationBody ops r (stateAfter ops r cfg ctx k)

end Q

/- ----------------------------------------------------------------------
   Basic lemmas about the JS number model
   ---------------------------------------------------------------------- -/

namespace JsNum

@[simp] theorem ltB_nan_right (a : JsNum) : ltB a nan = false := by cases a <;> rfl

@[simp] theorem ltB_nan_left (a : JsNum) : ltB nan a = false := by cases a <;> rfl

@[simp] theorem gtB_nan_left (a : JsNum) : gtB nan a = false := ltB_nan_right a

@[simp] theorem gtB_nan_right (a : JsNum) : gtB a nan = false := ltB_nan_left a

@[simp] theorem leB_nan_right (a : JsNum) : leB a nan = false := by cases a <;> rfl

@[simp] theorem leB_nan_left (a : JsNum) : leB nan a = false := by cases a <;> rfl

theorem gtB_ne_nan {a b : JsNum} (h : gtB a b = true) : a ≠ nan := by
  intro e
  subst e
  simp at h

theorem leB_refl {a : JsNum} (h : a ≠ nan) : leB a a = true := by
  cases a
  · exact absurd rfl h
  · rfl
  · rfl
  · simp [leB]

theorem geB_refl {a : JsNum} (h : a ≠ nan) : geB a a = true := leB_refl h

theorem ltB_imp_leB {a b : JsNum} (h : ltB a b = true) : leB a b = true := by
  cases a <;> cases b <;> simp_all [ltB, leB]
  exact le_of_lt h

theorem leB_trans {a b c : JsNum} (h1 : leB a b = true) (h2 : leB b c = true) :
    leB a c = true := by
  cases a <;> cases b <;> cases c <;> simp_all [leB]
  exact le_trans h1 h2

theorem geB_trans {a b c : JsNum} (h1 : geB b a = true) (h2 : geB c b = true) :
    geB c a = true := leB_trans h1 h2

/-- `Math.abs(-Infinity - (-Infinity)) = NaN`: the convergence test of a run
whose global best fitness never leaves `-Infinity` compares `NaN`. -/
theorem abs_ninf_sub_ninf : abs (ninf - ninf) = nan := rfl

@[simp] theorem min2_nan_right (a : JsNum) : min2 a nan = nan := by simp [min2]

@[simp] theorem max2_nan_right (a : JsNum) : max2 a nan = nan := by simp [max2]

/-- A fold whose step function fixes `NaN` keeps `NaN` once reached. -/
theorem foldl_nan_fixed {α : Type} (f : JsNum → α → JsNum)
    (h : ∀ x, f nan x = nan) (l : List α) : l.foldl f nan = nan := by
  induction l with
  | nil => rfl
  | cons a t ih => rw [List.foldl_cons, h a, ih]

/-- Folding JS addition of mapped terms from an arbitrary start. -/
theorem foldl_add_eq_sum {α : Type} (g : α → JsNum) (l : List α) (a : JsNum) :
    l.foldl (fun acc x => acc + g x) a = a + (l.map g).sum := by
  induction l generalizing a with
  | nil => simp
  | cons b t ih =>
    rw [List.foldl_cons, ih, List.map_cons, List.sum_cons, jsAdd_assoc]

end JsNum

/- ----------------------------------------------------------------------
   Step lemmas: which fields each phase touches
   ---------------------------------------------------------------------- -/

namespace Q

@[simp] theorem evolve_particles (ops : MathOps) (r : RandStream) (s : MState) :
    (evolveQuantumStates ops r s).opt.particles = s.opt.particles := rfl

@[simp] theorem evolve_gbp (ops : MathOps) (r : RandStream) (s : MState) :
    (evolveQuantumStates ops r s).opt.globalBestPosition = s.opt.globalBestPosition := rfl

@[simp] theorem evolve_gbf (ops : MathOps) (r : RandStream) (s : MState) :
    (evolveQuantumStates ops r s).opt.globalBestFitness = s.opt.globalBestFitness := rfl

@[simp] theorem evolve_config (ops : MathOps) (r : RandStream) (s : MState) :
    (evolveQuantumStates ops r s).opt.config = s.opt.config := rfl

@[simp] theorem evolve_ctx (ops : MathOps) (r : RandStream) (s : MState) :
    (evolveQuantumStates ops r s).ctx = s.ctx := rfl

@[simp] theorem update_gbp (ops : MathOps) (r : RandStream) (s : MState) :
    (updateParticles ops r s).opt.globalBestPosition = s.opt.globalBestPosition := rfl

@[simp] theorem update_gbf (ops : MathOps) (r : RandStream) (s : MState) :
    (updateParticles ops r s).opt.globalBestFitness = s.opt.globalBestFitness := rfl

@[simp] theorem update_config (ops : MathOps) (r : RandStream) (s : MState) :
    (updateParticles ops r s).opt.config = s.opt.config := rfl

@[simp] theorem update_ctx (ops : MathOps) (r : RandStream) (s : MState) :
    (updateParticles ops r s).ctx = s.ctx := rfl

@[simp] theorem update_quantumStates (ops : MathOps) (r : RandStream) (s : MState) :
    (updateParticles ops r s).opt.quantumStates = s.opt.quantumStates := rfl

@[simp] theorem evaluate_config (ops : MathOps) (s : MState) :
    (evaluateParticles ops s).opt.config = s.opt.config := rfl

@[simp] theorem evaluate_ctx (ops : MathOps) (s : MState) :
    (evaluateParticles ops s).ctx = s.ctx := rfl

@[simp] theorem evaluate_quantumStates (ops : MathOps) (s : MState) :
    (evaluateParticles ops s).opt.quantumStates = s.opt.quantumStates := rfl

@[simp] theorem evaluate_cursor (ops : MathOps) (s : MState) :
    (evaluateParticles ops s).cursor = s.cursor := rfl

@[simp] theorem initQS_particles (ops : MathOps) (r : RandStream) (d : ℕ) (s : MState) :
    (initializeQuantumStates ops r d s).opt.particles = s.opt.particles := rfl

@[simp] theorem initQS_gbp (ops : MathOps) (r : RandStream) (d : ℕ) (s : MState) :
    (initializeQuantumStates ops r d s).opt.globalBestPosition =
      s.opt.globalBestPosition := rfl

@[simp] theorem initQS_gbf (ops : MathOps) (r : RandStream) (d : ℕ) (s : MState) :
    (initializeQuantumStates ops r d s).opt.globalBestFitness =
      s.opt.globalBestFitness := rfl

@[simp] theorem initQS_config (ops : MathOps) (r : RandStream) (d : ℕ) (s : MState) :
    (initializeQuantumStates ops r d s).opt.config = s.opt.config := rfl

@[simp] theorem initQS_ctx (ops : MathOps) (r : RandStream) (d : ℕ) (s : MState) :
    (initializeQuantumStates ops r d s).ctx = s.ctx := rfl

@[simp] theorem initP_gbp (r : RandStream) (s : MState) :
    (initializeParticles r s).opt.globalBestPosition = s.opt.globalBestPosition := rfl

@[simp] theorem initP_gbf (r : RandStream) (s : MState) :
    (initializeParticles r s).opt.globalBestFitness = s.opt.globalBestFitness := rfl

@[simp] theorem initP_config (r : RandStream) (s : MState) :
    (initializeParticles r s).opt.config = s.opt.config := rfl

@[simp] theorem initP_ctx (r : RandStream) (s : MState) :
    (initializeParticles r s).ctx = s.ctx := rfl

@[simp] theorem initP_quantumStates (r : RandStream) (s : MState) :
    (initializeParticles r s).opt.quantumStates = s.opt.quantumStates := rfl

@[simp] theorem iterationBody_config (ops : MathOps) (r : RandStream) (s : MState) :
    (iterationBody ops r s).opt.config = s.opt.config := rfl

@[simp] theorem iterationBody_ctx (ops : MathOps) (r : RandStream) (s : MState) :
    (iterationBody ops r s).ctx = s.ctx := rfl

/- ----------------------------------------------------------------------
   The NaN path: the never-initialized global best position
   ---------------------------------------------------------------------- -/

/-- Every read of an all-`NaN` array gives `NaN` (in bounds because the
elements are `NaN`, out of bounds because `undefined` behaves as `NaN`). -/
theorem jsGet_all_nan {l : List JsNum} (hall : ∀ x ∈ l, x = JsNum.nan) (j : ℕ) :
    jsGet l j = JsNum.nan := by
  unfold jsGet
  rcases h : l.getD j JsNum.nan with _ | _ | _ | x
  · rfl
  all_goals
    exact hall _ (by
      have hj : j < l.length := by
        by_contra hge
        rw [List.getD_eq_default _ _ (le_of_not_lt hge)] at h
        exact absurd h.symm (by simp)
      rw [List.getD_eq_getElem _ _ hj] at h
      rw [← h]
      exact List.getElem_mem hj)

/-- A non-empty list of `NaN`s sums to `NaN`. -/
theorem sum_all_nan {l : List JsNum} (hne : l ≠ []) (hall : ∀ x ∈ l, x = JsNum.nan) :
    l.sum = JsNum.nan := by
  rcases l with _ | ⟨a, t⟩
  · exact absurd rfl hne
  rw [List.sum_cons, hall a (List.mem_cons_self a t)]
  simp

/-- An expected return computed over a non-empty all-`NaN` allocation is
`NaN`. -/
theorem calculateExpectedReturn_nan (rows : List (List JsNum)) {l : List JsNum}
    (hne : l ≠ []) (hall : ∀ x ∈ l, x = JsNum.nan) :
    calculateExpectedReturn l rows = JsNum.nan := by
  simp only [calculateExpectedReturn]
  rw [JsNum.foldl_add_eq_sum]
  rw [sum_all_nan (l := l.enum.map _) ?_ ?_]
  · simp
  · simp [List.enum_length, ← List.length_eq_zero, hne]
    intro h
    exact hne (List.length_eq_zero.mp h)
  · intro x hx
    rcases List.mem_map.mp hx with ⟨iw, hiw, hx⟩
    have h2 : iw.2 = JsNum.nan := by
      have : iw.2 ∈ l.enum.map Prod.snd := List.mem_map_of_mem Prod.snd hiw
      rw [List.enum_map_snd] at this
      exact hall _ this
    rw [← hx, h2]
    simp

/-- A portfolio volatility computed over a non-empty all-`NaN` allocation is
`NaN`. -/
theorem calculatePortfolioVolatility_nan (ops : MathOps) (vol : List JsNum)
    (corr : List (List JsNum)) {l : List JsNum} (hne : l ≠ [])
    (hall : ∀ x ∈ l, x = JsNum.nan) :
    calculatePortfolioVolatility ops l vol corr = JsNum.nan := by
  simp only [calculatePortfolioVolatility]
  have hterm : ∀ i j, jsGet l i * jsGet l j * jsGet vol i * jsGet vol j *
      jsGet (corr.getD i []) j = JsNum.nan := by
    intro i j
    rw [jsGet_all_nan hall i]
    simp
  have hrange : List.range l.length ≠ [] := by
    simpa [List.range_eq_nil, List.length_eq_zero] using hne
  have hinner : ∀ (acc : JsNum) i, (List.range l.length).foldl
      (fun acc2 j => acc2 + jsGet l i * jsGet l j * jsGet vol i * jsGet vol j *
        jsGet (corr.getD i []) j) acc = JsNum.nan := by
    intro acc i
    rw [JsNum.foldl_add_eq_sum]
    rw [sum_all_nan (l := (List.range l.length).map _) ?_ ?_]
    · simp
    · simpa using hrange
    · intro x hx
      rcases List.mem_map.mp hx with ⟨j, _, hx⟩
      rw [← hx, hterm i j]
  rw [List.foldl_ext _ (fun acc _ => acc + JsNum.nan) 0
    (fun acc i _ => by rw [hinner acc i]; simp)]
  rw [JsNum.foldl_add_eq_sum]
  rw [sum_all_nan (l := (List.range l.length).map _) ?_ ?_]
  · simp [JsNum.sqrtJ]
  · simpa using hrange
  · intro x hx
    rcases List.mem_map.mp hx with ⟨j, _, hx⟩
    exact hx.symm

/-- A fitness computed over a non-empty all-`NaN` allocation is `NaN`: the
`NaN` propagates through Sharpe ratio and both penalty guards compare `false`
on `NaN`. -/
theorem calculateFitness_nan (ops : MathOps) (ctx : OptimizationContext)
    {l : List JsNum} (hne : l ≠ []) (hall : ∀ x ∈ l, x = JsNum.nan) :
    calculateFitness ops l ctx = JsNum.nan := by
  simp only [calculateFitness]
  rw [calculateExpectedReturn_nan _ hne hall,
    calculatePortfolioVolatility_nan ops _ _ hne hall]
  simp

@[simp] theorem normalizeAllocation_length (l : List JsNum) :
    (normalizeAllocation l).length = l.length := by
  simp [normalizeAllocation]

theorem normalizeAllocation_all_nan {l : List JsNum} (hall : ∀ x ∈ l, x = JsNum.nan) :
    ∀ y ∈ normalizeAllocation l, y = JsNum.nan := by
  intro y hy
  simp only [normalizeAllocation] at hy
  rcases List.mem_map.mp hy with ⟨x, hx, hxy⟩
  rw [← hxy, hall x hx]
  simp

@[simp] theorem clamp_nan : clamp JsNum.nan 0 1 = JsNum.nan := rfl

/-- With the global best position still the empty array, `updateParticles`
turns every component of a particle's position into `NaN` (the social velocity
term reads `globalBestPosition[j] = undefined`), while preserving the
position's length. -/
theorem updateOneParticle_nan (ops : MathOps) (r : RandStream)
    (qrow : List QuantumState) (p : ParticleState) (k : ℕ) :
    ((updateOneParticle ops r [] qrow p k).1.position.length = p.position.length) ∧
    ∀ x ∈ (updateOneParticle ops r [] qrow p k).1.position, x = JsNum.nan := by
  simp only [updateOneParticle]
  have hvel : ∀ x ∈ p.velocity.enum.map (fun jv =>
      JsNum.fin (7 / 10) * jv.2 +
        JsNum.fin (3 / 2) * JsNum.fin (r (k + 2 * jv.1)) *
          (jsGet p.bestPosition jv.1 - jsGet p.position jv.1) +
        JsNum.fin (3 / 2) * JsNum.fin (r (k + 2 * jv.1 + 1)) *
          (jsGet [] jv.1 - jsGet p.position jv.1)), x = JsNum.nan := by
    intro x hx
    rcases List.mem_map.mp hx with ⟨jv, _, hxe⟩
    rw [← hxe]
    simp
  constructor
  · simp
  · apply normalizeAllocation_all_nan
    intro x hx
    rcases List.mem_map.mp hx with ⟨jp, _, hxe⟩
    rw [← hxe, jsGet_all_nan hvel jp.1]
    simp

/-- Every particle produced by the update pass with empty global best position
is the `updateOneParticle` image of some input particle. -/
theorem updateParticlesGo_elems (ops : MathOps) (r : RandStream)
    (qss : List (List QuantumState)) :
    ∀ (l : List ParticleState) (i k : ℕ),
      ∀ q ∈ (updateParticlesGo ops r [] qss l i k).1,
        ∃ p ∈ l, ∃ qrow k', q = (updateOneParticle ops r [] qrow p k').1 := by
  intro l
  induction l with
  | nil => intro i k q hq; simp [updateParticlesGo] at hq
  | cons p t ih =>
    intro i k q hq
    simp only [updateParticlesGo] at hq
    rcases List.mem_cons.mp hq with hq | hq
    · exact ⟨p, List.mem_cons_self p t, qss.getD i [], k, hq⟩
    · rcases ih (i + 1) _ q hq with ⟨p', hp', qrow, k', he⟩
      exact ⟨p', List.mem_cons_of_mem p hp', qrow, k', he⟩

/-- When every particle's fitness is `NaN`, the evaluation pass appends each
particle unchanged and never touches the bests. -/
theorem foldl_evaluateStep_nan (ops : MathOps) (ctx : OptimizationContext) :
    ∀ (l : List ParticleState) (acc : EvalAcc),
      (∀ p ∈ l, calculateFitness ops p.position ctx = JsNum.nan) →
      l.foldl (evaluateStep ops ctx) acc = { acc with particles := acc.particles ++ l } := by
  intro l
  induction l with
  | nil => intro acc _; simp
  | cons p t ih =>
    intro acc h
    rw [List.foldl_cons]
    have hstep : evaluateStep ops ctx acc p = { acc with particles := acc.particles ++ [p] } := by
      simp [evaluateStep, h p (List.mem_cons_self p t)]
    rw [hstep, ih _ (fun q hq => h q (List.mem_cons_of_mem p hq))]
    simp

/-- When every particle's fitness is `NaN`, `evaluateParticles` is the
identity. -/
theorem evaluateParticles_id (ops : MathOps) (s : MState)
    (h : ∀ p ∈ s.opt.particles, calculateFitness ops p.position s.ctx = JsNum.nan) :
    evaluateParticles ops s = s := by
  simp only [evaluateParticles]
  rw [foldl_evaluateStep_nan ops s.ctx _ _ h]
  rfl

/-- The invariant of the dead search loop: the global best position was never
populated, the global best fitness is still `-Infinity`, and every particle's
position has the context's dimension. -/
def DeadInv (n : ℕ) (s : MState) : Prop :=
  s.opt.globalBestPosition = [] ∧ s.opt.globalBestFitness = JsNum.ninf ∧
  ∀ p ∈ s.opt.particles, p.position.length = n

/-- One loop iteration preserves the dead-loop invariant: the update pass
poisons every position with `NaN` (because the social term reads the empty
global best array), so every fitness is `NaN` and the evaluation pass changes
nothing. -/
theorem iterationBody_dead (ops : MathOps) (r : RandStream) {n : ℕ} (hn : 1 ≤ n)
    {s : MState} (h : DeadInv n s) : DeadInv n (iterationBody ops r s) := by
  rcases h with ⟨hgbp, hgbf, hlen⟩
  set s1 := evolveQuantumStates ops r s with hs1
  set s2 := updateParticles ops r s1 with hs2
  have h2pos : ∀ q ∈ s2.opt.particles, q.position.length = n ∧
      ∀ x ∈ q.position, x = JsNum.nan := by
    intro q hq
    have hq' : q ∈ (updateParticlesGo ops r s1.opt.globalBestPosition
        s1.opt.quantumStates s1.opt.particles 0 s1.cursor).1 := hq
    rw [hs1] at hq'
    simp only [evolve_gbp, hgbp] at hq'
    rcases updateParticlesGo_elems ops r _ _ _ _ q hq' with ⟨p, hp, qrow, k', he⟩
    have hup := updateOneParticle_nan ops r qrow p k'
    rw [← he] at hup
    have hplen : p.position.length = n := hlen p (by simpa using hp)
    exact ⟨hup.1.trans hplen, hup.2⟩
  have heval : evaluateParticles ops s2 = s2 := by
    apply evaluateParticles_id
    intro p hp
    rcases h2pos p hp with ⟨hplen, hpnan⟩
    apply calculateFitness_nan
    · intro he
      rw [he] at hplen
      simp at hplen
      omega
    · exact hpnan
  show DeadInv n (evaluateParticles ops s2)
  rw [heval]
  exact ⟨by simp [hs2, hs1, hgbp], by simp [hs2, hs1, hgbf],
    fun p hp => (h2pos p hp).1⟩

/-- The while-loop preserves the dead-loop invariant for any fuel, iteration
counter and previous-best value. -/
theorem loopGo_dead (ops : MathOps) (r : RandStream) {n : ℕ} (hn : 1 ≤ n) :
    ∀ (fuel iter : ℕ) (prev : JsNum) (s : MState), DeadInv n s →
      DeadInv n (loopGo ops r fuel iter prev s).1 := by
  intro fuel
  induction fuel with
  | zero => intro iter prev s h; exact h
  | succ fuel ih =>
    intro iter prev s h
    simp only [loopGo]
    by_cases hg : JsNum.ltB (JsNum.fin (iter : ℚ)) s.opt.config.iterations = true
    · rw [if_pos hg]
      have hbody := iterationBody_dead ops r hn h
      by_cases hc : JsNum.ltB
          (JsNum.abs ((iterationBody ops r s).opt.globalBestFitness - prev))
          (iterationBody ops r s).opt.config.convergenceThreshold = true
      · rw [if_pos hc]
        exact hbody
      · rw [if_neg hc]
        exact ih _ _ _ hbody
    · rw [if_neg hg]
      exact h

/-- With the dead-loop invariant holding and the previous best at `-Infinity`,
the convergence delta is `|(-Infinity) - (-Infinity)| = NaN`, every comparison
with the threshold is `false`, and the loop runs until the iteration counter
reaches the finite cap: it executes exactly `cap - iter` more iterations. -/
theorem loopGo_dead_count (ops : MathOps) (r : RandStream) {n cap : ℕ} (hn : 1 ≤ n) :
    ∀ (fuel iter : ℕ) (s : MState), DeadInv n s →
      s.opt.config.iterations = JsNum.fin (cap : ℚ) →
      cap - iter ≤ fuel →
      (loopGo ops r fuel iter JsNum.ninf s).2 = cap - iter := by
  intro fuel
  induction fuel with
  | zero =>
    intro iter s h hcap hfuel
    simp only [loopGo]
    omega
  | succ fuel ih =>
    intro iter s h hcap hfuel
    simp only [loopGo, hcap]
    by_cases hlt : iter < cap
    · have hg : JsNum.ltB (JsNum.fin (iter : ℚ)) (JsNum.fin (cap : ℚ)) = true := by
        simp [JsNum.ltB]
        exact_mod_cast hlt
      rw [if_pos hg]
      have hbody := iterationBody_dead ops r hn h
      have hgbf : (iterationBody ops r s).opt.globalBestFitness = JsNum.ninf := hbody.2.1
      have hconv : JsNum.ltB
          (JsNum.abs ((iterationBody ops r s).opt.globalBestFitness - JsNum.ninf))
          (iterationBody ops r s).opt.config.convergenceThreshold = false := by
        rw [hgbf, JsNum.abs_ninf_sub_ninf]
        simp
      rw [if_neg (by rw [hconv]; simp)]
      have hcap' : (iterationBody ops r s).opt.config.iterations = JsNum.fin (cap : ℚ) := by
        rw [iterationBody_config, hcap]
      rw [hgbf, ih (iter + 1) _ hbody hcap' (by omega)]
      omega
    · have hg : JsNum.ltB (JsNum.fin (iter : ℚ)) (JsNum.fin (cap : ℚ)) = false := by
        simp [JsNum.ltB]
        exact_mod_cast not_lt.mp hlt
      rw [if_neg (by rw [hg]; simp)]
      omega

/-- Every particle built by `initializeParticles` has a position of the
context's dimension. -/
theorem initializeParticles_positions (r : RandStream) (s : MState) :
    ∀ p ∈ (initializeParticles r s).opt.particles,
      p.position.length = s.ctx.assets.length := by
  intro p hp
  simp only [initializeParticles] at hp
  rcases List.mem_map.mp hp with ⟨i, _, he⟩
  rw [← he]
  simp [generateRandomAllocation]

/-- The state at the start of the loop of a fresh run satisfies the dead-loop
invariant. -/
theorem initState_dead (ops : MathOps) (r : RandStream) (cfg : QuantumConfigIn)
    (ctx : OptimizationContext) : DeadInv ctx.assets.length (initState ops r cfg ctx) := by
  refine ⟨rfl, rfl, ?_⟩
  intro p hp
  have := initializeParticles_positions r _ p hp
  simpa using this

/- ----------------------------------------------------------------------
   Spec-side fitness formulas (stated from the specification's wording,
   to be compared against the code translation)
   ---------------------------------------------------------------------- -/

/-- Spec wording: the arithmetic mean of a historical return series. -/
def meanSpec (row : List JsNum) : JsNum := row.sum / JsNum.fin (row.length : ℚ)

/-- Spec wording: `expectedReturn = Σ_i weight[i] · mean(returns[i])`, the sum
ranging over the assets. -/
def expectedReturnSpec (ctx : OptimizationContext) (w : List JsNum) : JsNum :=
  ((List.range ctx.assets.length).map (fun i =>
    jsGet w i * meanSpec (ctx.historicalData.returns.getD i []))).sum

/-- Spec wording: `portfolioVolatility =
sqrt(Σ_i Σ_j weight[i]·weight[j]·vol[i]·vol[j]·correlation[i][j])`. -/
def portfolioVolatilitySpec (ops : MathOps) (ctx : OptimizationContext)
    (w : List JsNum) : JsNum :=
  JsNum.sqrtJ ops
    (((List.range ctx.assets.length).map (fun i =>
      ((List.range ctx.assets.length).map (fun j =>
        jsGet w i * jsGet w j * jsGet ctx.historicalData.volatility i *
          jsGet ctx.historicalData.volatility j *
          jsGet (ctx.historicalData.correlation.getD i []) j)).sum)).sum)

/-- Spec wording: `sharpeRatio = (expectedReturn - riskFreeRate) /
portfolioVolatility` with the risk-free rate fixed at 0.02. -/
def sharpeRatioSpec (ops : MathOps) (ctx : OptimizationContext) (w : List JsNum) : JsNum :=
  (expectedReturnSpec ctx w - JsNum.fin (2 / 100)) / portfolioVolatilitySpec ops ctx w

/-- Spec wording: the penalty is the volatility excess times 100 when the
volatility cap is exceeded, plus the Sharpe deficit times 100 when the Sharpe
floor is missed, else 0. -/
def penaltySpec (ops : MathOps) (ctx : OptimizationContext) (w : List JsNum) : JsNum :=
  (if JsNum.gtB (portfolioVolatilitySpec ops ctx w)
      ctx.constraints.riskBudget.maxVolatility then
    (portfolioVolatilitySpec ops ctx w - ctx.constraints.riskBudget.maxVolatility) *
      JsNum.fin 100
   else 0) +
  (if JsNum.ltB (sharpeRatioSpec ops ctx w) ctx.constraints.riskBudget.minSharpeRatio then
    (ctx.constraints.riskBudget.minSharpeRatio - sharpeRatioSpec ops ctx w) * JsNum.fin 100
   else 0)

/-- Spec wording: `fitness = sharpeRatio - penalty`. -/
def fitnessSpec (ops : MathOps) (ctx : OptimizationContext) (w : List JsNum) : JsNum :=
  sharpeRatioSpec ops ctx w - penaltySpec ops ctx w

/-- The source's `reduce((a, b) => a + b)` agrees with the list sum on
non-empty arrays. -/
theorem jsReduceAdd_eq_sum {row : List JsNum} (h : row ≠ []) :
    jsReduceAdd row = row.sum := by
  rcases row with _ | ⟨a, t⟩
  · exact absurd rfl h
  show t.foldl (fun a b => a + b) a = (a :: t).sum
  have := JsNum.foldl_add_eq_sum (fun x : JsNum => x) t a
  simp only [List.map_id'] at this
  rw [List.sum_cons, ← this]

/-- The code's inline mean agrees with the spec's mean on every row (on the
empty row both sides are `NaN`: `undefined`-reduce modelled as `NaN`, and
`0 / 0 = NaN`). -/
theorem mean_code_eq_spec (row : List JsNum) :
    jsReduceAdd row / JsNum.fin (row.length : ℚ) = meanSpec row := by
  rcases hrow : row with _ | ⟨a, t⟩
  · rfl
  · rw [meanSpec, jsReduceAdd_eq_sum (by simp)]

/-- The code's expected-return fold agrees with the spec's sum over assets,
whenever the allocation has the context's dimension. -/
theorem calculateExpectedReturn_eq_spec (ctx : OptimizationContext)
    {w : List JsNum} (hw : w.length = ctx.assets.length) :
    calculateExpectedReturn w ctx.historicalData.returns = expectedReturnSpec ctx w := by
  simp only [calculateExpectedReturn, expectedReturnSpec, ← hw]
  rw [JsNum.foldl_add_eq_sum, JsNum.jsZero_add]
  congr 1
  apply List.ext_getElem
  · simp
  · intro i h1 h2
    simp only [List.getElem_map, List.getElem_enum, List.getElem_range]
    rw [mean_code_eq_spec]
    congr 1
    rw [jsGet, List.getD_eq_getElem]

/-- The code's double volatility loop agrees with the spec's double sum,
whenever the allocation has the context's dimension. -/
theorem calculatePortfolioVolatility_eq_spec (ops : MathOps) (ctx : OptimizationContext)
    {w : List JsNum} (hw : w.length = ctx.assets.length) :
    calculatePortfolioVolatility ops w ctx.historicalData.volatility
      ctx.historicalData.correlation = portfolioVolatilitySpec ops ctx w := by
  simp only [calculatePortfolioVolatility, portfolioVolatilitySpec, ← hw]
  congr 1
  rw [List.foldl_ext _ (fun acc i => acc +
    ((List.range w.length).map (fun j =>
      jsGet w i * jsGet w j * jsGet ctx.historicalData.volatility i *
        jsGet ctx.historicalData.volatility j *
        jsGet (ctx.historicalData.correlation.getD i []) j)).sum) 0
    (fun acc i _ => JsNum.foldl_add_eq_sum _ _ acc)]
  rw [JsNum.foldl_add_eq_sum, JsNum.jsZero_add]

/-- The code's fitness agrees with the spec's formula, whenever the allocation
has the context's dimension: the sequential `penalty += …` accumulation equals
the spec's sum of the two conditional penalty terms. -/
theorem calculateFitness_eq_spec (ops : MathOps) (ctx : OptimizationContext)
    {w : List JsNum} (hw : w.length = ctx.assets.length) :
    calculateFitness ops w ctx = fitnessSpec ops ctx w := by
  simp only [calculateFitness, fitnessSpec, penaltySpec, sharpeRatioSpec]
  rw [calculateExpectedReturn_eq_spec ctx hw, calculatePortfolioVolatility_eq_spec ops ctx hw]
  by_cases h1 : JsNum.gtB (portfolioVolatilitySpec ops ctx w)
      ctx.constraints.riskBudget.maxVolatility = true
  · rw [if_pos h1, if_pos h1]
    by_cases h2 : JsNum.ltB ((expectedReturnSpec ctx w - JsNum.fin (2 / 100)) /
        portfolioVolatilitySpec ops ctx w) ctx.constraints.riskBudget.minSharpeRatio = true
    · rw [if_pos h2, if_pos h2]
      rw [JsNum.jsZero_add]
    · rw [if_neg h2, if_neg h2]
      simp
  · rw [if_neg h1, if_neg h1]
    by_cases h2 : JsNum.ltB ((expectedReturnSpec ctx w - JsNum.fin (2 / 100)) /
        portfolioVolatilitySpec ops ctx w) ctx.constraints.riskBudget.minSharpeRatio = true
    · rw [if_pos h2, if_pos h2]
    · rw [if_neg h2, if_neg h2]
      simp

/- ----------------------------------------------------------------------
   Snapshot semantics for the evaluation pass (C7)
   ---------------------------------------------------------------------- -/

/-- Spec wording (snapshot semantics): one best-tracking update step applied
to an already-computed (particle, fitness) pair. -/
def evaluateStepPre (acc : EvalAcc) (pf : ParticleState × JsNum) : EvalAcc :=
  if JsNum.gtB pf.2 pf.1.bestFitness then
    let particle' := { pf.1 with bestFitness := pf.2, bestPosition := pf.1.position }
    if JsNum.gtB pf.2 acc.globalBestFitness then
      { particles := acc.particles ++ [particle'],
        globalBestPosition := pf.1.position,
        globalBestFitness := pf.2 }
    else { acc with particles := acc.particles ++ [particle'] }
  else { acc with particles := acc.particles ++ [pf.1] }

/-- Spec wording (snapshot semantics): every particle's fitness is computed
first, from the pre-iteration positions only, and the best-tracking updates
are then folded in. -/
def evaluateParticlesSnapshot (ops : MathOps) (s : MState) : MState :=
  let fitnesses := s.opt.particles.map (fun p => calculateFitness ops p.position s.ctx)
  let acc := (s.opt.particles.zip fitnesses).foldl evaluateStepPre
    { particles := [],
      globalBestPosition := s.opt.globalBestPosition,
      globalBestFitness := s.opt.globalBestFitness }
  { s with
    opt := { s.opt with
              particles := acc.particles,
              globalBestPosition := acc.globalBestPosition,
              globalBestFitness := acc.globalBestFitness } }

/-- The interleaved pass and the snapshot pass fold identically: a particle's
fitness depends only on its own position and the context, never on the
personal/global bests mutated earlier in the same pass. -/
theorem foldl_evaluateStep_eq_pre (ops : MathOps) (ctx : OptimizationContext) :
    ∀ (l : List ParticleState) (acc : EvalAcc),
      l.foldl (evaluateStep ops ctx) acc =
        ((l.zip (l.map (fun p => calculateFitness ops p.position ctx))).foldl
          evaluateStepPre acc) := by
  intro l
  induction l with
  | nil => intro acc; rfl
  | cons p t ih =>
    intro acc
    rw [List.map_cons, List.zip_cons_cons, List.foldl_cons, List.foldl_cons]
    rw [ih]
    rfl

/- ----------------------------------------------------------------------
   The optimize call leaves the context untouched (C9)
   ---------------------------------------------------------------------- -/

/-- The while-loop never writes the context. -/
theorem loopGo_ctx (ops : MathOps) (r : RandStream) :
    ∀ (fuel iter : ℕ) (prev : JsNum) (s : MState),
      (loopGo ops r fuel iter prev s).1.ctx = s.ctx := by
  intro fuel
  induction fuel with
  | zero => intro iter prev s; rfl
  | succ fuel ih =>
    intro iter prev s
    simp only [loopGo]
    by_cases hg : JsNum.ltB (JsNum.fin (iter : ℚ)) s.opt.config.iterations = true
    · rw [if_pos hg]
      by_cases hc : JsNum.ltB
          (JsNum.abs ((iterationBody ops r s).opt.globalBestFitness - prev))
          (iterationBody ops r s).opt.config.convergenceThreshold = true
      · rw [if_pos hc]
        exact iterationBody_ctx ops r s
      · rw [if_neg hc]
        rw [ih]
        exact iterationBody_ctx ops r s
    · rw [if_neg hg]

/-- `optimize` returns with the context it was given: no phase of the run
writes any field of the input. -/
theorem optimize_ctx (ops : MathOps) (r : RandStream) (s : MState) :
    (optimize ops r s).2.1.ctx = s.ctx := by
  show (loopGo ops r _ 0 JsNum.ninf _).1.ctx = s.ctx
  rw [loopGo_ctx]
  rfl

/- ----------------------------------------------------------------------
   Concrete inputs for witnesses and counterexample evaluations
   ---------------------------------------------------------------------- -/

/-- A concrete, fully computable instantiation of the abstract `Math`
primitives, admissible for every analytic hypothesis the theorems take
(`cos² + sin² = 1`, `pi ≠ 0`, `sqrt 0 = 0`). -/
def opsW : MathOps :=
  { cos := fun _ => 1, sin := fun _ => 0, sqrt := fun _ => 0,
    fmod := fun x _ => x, pi := 3 }

/-- A concrete random stream: every `Math.random()` call returns 1/2. -/
def randW : RandStream := fun _ => 1 / 2

/-- A concrete asset. -/
def assetW : Asset :=
  { symbol := "A", price := JsNum.fin 1, volume := JsNum.fin 1,
    volatility := JsNum.fin 1 }

/-- A concrete one-asset optimization context (volatility 0.1, correlation 1,
risk budget maxVolatility 1 / minSharpeRatio -10). -/
def ctxW : OptimizationContext :=
  { assets := [assetW],
    constraints :=
      { minPositions := JsNum.fin 1, maxPositions := JsNum.fin 1,
        riskBudget :=
          { maxVolatility := JsNum.fin 1, maxDrawdown := JsNum.fin 1,
            minSharpeRatio := JsNum.fin (-10) } },
    marketRegime := { type := "bull", confidence := JsNum.fin 1 },
    historicalData :=
      { returns := [[JsNum.fin (1 / 100), JsNum.fin (2 / 100)]],
        volatility := [JsNum.fin (1 / 10)],
        correlation := [[JsNum.fin 1]] } }

/-- A concrete configuration: 1 particle, 2 iterations, tiny threshold. -/
def cfgW : QuantumConfigIn :=
  { particles := some (JsNum.fin 1), iterations := some (JsNum.fin 2),
    convergenceThreshold := some (JsNum.fin (1 / 100000000)) }

/-- The configuration for the convergence-cap run: threshold `Infinity`. -/
def cfgWinf : QuantumConfigIn :=
  { particles := some (JsNum.fin 1), iterations := some (JsNum.fin 2),
    convergenceThreshold := some JsNum.pinf }

/-- A one-asset context with an all-zero return series, used to exercise the
zero-volatility division. -/
def ctxZ : OptimizationContext :=
  { ctxW with
    historicalData :=
      { returns := [[JsNum.fin 0]], volatility := [JsNum.fin (1 / 10)],
        correlation := [[JsNum.fin 1]] } }

/- ----------------------------------------------------------------------
   Quantum-state evolution preserves amplitude magnitudes (C8)
   ---------------------------------------------------------------------- -/

/-- A quantum state all of whose numeric components are finite (as produced by
`initializeQuantumStates`). -/
def FiniteQ (st : QuantumState) : Prop :=
  (∃ a, st.amplitude.real = JsNum.fin a) ∧ (∃ b, st.amplitude.imaginary = JsNum.fin b) ∧
  (∃ c, st.phase = JsNum.fin c)

/-- A quantum grid all of whose states are finite. -/
def FiniteGrid (qs : List (List QuantumState)) : Prop :=
  ∀ row ∈ qs, ∀ st ∈ row, FiniteQ st

/-- One evolution step is a rotation: it keeps the state finite and preserves
the amplitude magnitude `sqrt(real² + imaginary²)`, because
`cos² + sin² = 1`. -/
theorem evolveOne_finite_magnitude (ops : MathOps)
    (hpyth : ∀ x, ops.cos x ^ 2 + ops.sin x ^ 2 = 1) (hpi : ops.pi ≠ 0)
    (u : ℚ) (st : QuantumState) (h : FiniteQ st) :
    FiniteQ (evolveOneQuantumState ops u st) ∧
    ampMagnitude ops (evolveOneQuantumState ops u st).amplitude =
      ampMagnitude ops st.amplitude := by
  obtain ⟨⟨a, ha⟩, ⟨b, hb⟩, ⟨c, hc⟩⟩ := h
  have h2pi : (2 : ℚ) * ops.pi ≠ 0 := mul_ne_zero two_ne_zero hpi
  set m := ops.fmod (c + u * ops.pi) (2 * ops.pi) with hm
  have hphase : JsNum.modJ ops (JsNum.fin (c + u * ops.pi))
      (JsNum.fin (2 * ops.pi)) = JsNum.fin m := by
    simp [JsNum.modJ, h2pi, hm]
  have hX : (ops.cos m * a - ops.sin m * b) * (ops.cos m * a - ops.sin m * b) +
      (ops.sin m * a + ops.cos m * b) * (ops.sin m * a + ops.cos m * b) = a * a + b * b := by
    have hp := hpyth m
    nlinarith [hp]
  constructor
  · refine ⟨⟨ops.cos m * a - ops.sin m * b, ?_⟩, ⟨ops.sin m * a + ops.cos m * b, ?_⟩,
      ⟨m, ?_⟩⟩ <;>
      simp [evolveOneQuantumState, hc, hphase, JsNum.cosJ, JsNum.sinJ, ha, hb]
  · show JsNum.sqrtJ ops _ = JsNum.sqrtJ ops _
    simp only [evolveOneQuantumState, hc, ha, hb, JsNum.fin_mul_fin, JsNum.fin_add_fin,
      hphase, JsNum.cosJ, JsNum.sinJ, JsNum.fin_sub_fin]
    congr 1
    rw [hX]

/-- Row evolution keeps the row finite, preserves its length, and preserves
the row's magnitude fold (the inner reduction of `calculateConfidence`). -/
theorem evolveRow_preserves (ops : MathOps)
    (hpyth : ∀ x, ops.cos x ^ 2 + ops.sin x ^ 2 = 1) (hpi : ops.pi ≠ 0) (r : RandStream) :
    ∀ (row : List QuantumState) (k : ℕ), (∀ st ∈ row, FiniteQ st) →
      ((evolveRow ops r row k).1.length = row.length) ∧
      (∀ st ∈ (evolveRow ops r row k).1, FiniteQ st) ∧
      (∀ acc : JsNum, (evolveRow ops r row k).1.foldl
          (fun pSum state => pSum + ampMagnitude ops state.amplitude) acc =
        row.foldl (fun pSum state => pSum + ampMagnitude ops state.amplitude) acc) := by
  intro row
  induction row with
  | nil => intro k _; exact ⟨rfl, by simp [evolveRow], fun acc => rfl⟩
  | cons st t ih =>
    intro k h
    have hst := evolveOne_finite_magnitude ops hpyth hpi (r k) st
      (h st (List.mem_cons_self st t))
    have iht := ih (k + 1) (fun q hq => h q (List.mem_cons_of_mem st hq))
    refine ⟨?_, ?_, ?_⟩
    · simp only [evolveRow]
      simpa using iht.1
    · intro q hq
      simp only [evolveRow] at hq
      rcases List.mem_cons.mp hq with hq | hq
      · rw [hq]; exact hst.1
      · exact iht.2.1 q hq
    · intro acc
      simp only [evolveRow, List.foldl_cons]
      rw [hst.2, iht.2.2]

/-- Grid evolution keeps the grid finite, preserves its shape, and preserves
the whole coherence fold of `calculateConfidence`. -/
theorem evolveRows_preserves (ops : MathOps)
    (hpyth : ∀ x, ops.cos x ^ 2 + ops.sin x ^ 2 = 1) (hpi : ops.pi ≠ 0) (r : RandStream) :
    ∀ (qs : List (List QuantumState)) (k : ℕ), FiniteGrid qs →
      ((evolveRows ops r qs k).1.length = qs.length) ∧
      FiniteGrid (evolveRows ops r qs k).1 ∧
      (∀ acc : JsNum, (evolveRows ops r qs k).1.foldl
          (fun sum particleStates =>
            sum + (particleStates.foldl
              (fun pSum state => pSum + ampMagnitude ops state.amplitude) 0) /
              JsNum.fin (particleStates.length : ℚ)) acc =
        qs.foldl
          (fun sum particleStates =>
            sum + (particleStates.foldl
              (fun pSum state => pSum + ampMagnitude ops state.amplitude) 0) /
              JsNum.fin (particleStates.length : ℚ)) acc) := by
  intro qs
  induction qs with
  | nil => intro k _; exact ⟨rfl, by intro row hr; simp [evolveRows] at hr, fun acc => rfl⟩
  | cons row t ih =>
    intro k h
    have hrow := evolveRow_preserves ops hpyth hpi r row k
      (h row (List.mem_cons_self row t))
    have iht := ih (evolveRow ops r row k).2 (fun q hq st hst =>
      h q (List.mem_cons_of_mem row hq) st hst)
    refine ⟨?_, ?_, ?_⟩
    · simp only [evolveRows]
      simpa using iht.1
    · intro q hq
      simp only [evolveRows] at hq
      rcases List.mem_cons.mp hq with hq | hq
      · rw [hq]; exact hrow.2.1
      · exact iht.2.1 q hq
    · intro acc
      simp only [evolveRows, List.foldl_cons]
      rw [iht.2.2]
      congr 2
      rw [hrow.2.2 0, hrow.1]

/-- Grid evolution leaves `calculateConfidence` unchanged on finite grids. -/
theorem calculateConfidence_evolve (ops : MathOps)
    (hpyth : ∀ x, ops.cos x ^ 2 + ops.sin x ^ 2 = 1) (hpi : ops.pi ≠ 0) (r : RandStream)
    (qs : List (List QuantumState)) (k : ℕ) (h : FiniteGrid qs) :
    calculateConfidence ops (evolveRows ops r qs k).1 = calculateConfidence ops qs := by
  have hp := evolveRows_preserves ops hpyth hpi r qs k h
  simp only [calculateConfidence]
  rw [hp.2.2 0, hp.1]

/-- The freshly initialized quantum grid is finite. -/
theorem initializeQuantumStates_finite (ops : MathOps) (r : RandStream) (d : ℕ)
    (s : MState) : FiniteGrid (initializeQuantumStates ops r d s).opt.quantumStates := by
  intro row hrow st hst
  simp only [initializeQuantumStates] at hrow
  rcases List.mem_map.mp hrow with ⟨i, _, hrow⟩
  rw [← hrow] at hst
  rcases List.mem_map.mp hst with ⟨j, _, hst⟩
  rw [← hst]
  exact ⟨⟨_, rfl⟩, ⟨_, rfl⟩, ⟨_, rfl⟩⟩

/-- Along a fresh run, the quantum grid stays finite (the update and
evaluation phases never touch it). -/
theorem stateAfter_grid_finite (ops : MathOps)
    (hpyth : ∀ x, ops.cos x ^ 2 + ops.sin x ^ 2 = 1) (hpi : ops.pi ≠ 0)
    (r : RandStream) (cfg : QuantumConfigIn) (ctx : OptimizationContext) :
    ∀ k, FiniteGrid (stateAfter ops r cfg ctx k).opt.quantumStates := by
  intro k
  induction k with
  | zero =>
    show FiniteGrid (initState ops r cfg ctx).opt.quantumStates
    rw [initState, initP_quantumStates]
    exact initializeQuantumStates_finite ops r _ _
  | succ k ih =>
    show FiniteGrid (iterationBody ops r _).opt.quantumStates
    rw [iterationBody, evaluate_quantumStates, update_quantumStates]
    exact (evolveRows_preserves ops hpyth hpi r _ _ ih).2.1

/-- One evaluation step never decreases the global best fitness (in the JS
`>=` sense) and never makes it `NaN`: it is overwritten only by a fitness that
compares strictly greater, and `NaN` never compares greater. -/
theorem evaluateStep_gbf (ops : MathOps) (ctx : OptimizationContext)
    (acc : EvalAcc) (p : ParticleState) (h : acc.globalBestFitness ≠ JsNum.nan) :
    (evaluateStep ops ctx acc p).globalBestFitness ≠ JsNum.nan ∧
    JsNum.geB (evaluateStep ops ctx acc p).globalBestFitness acc.globalBestFitness = true := by
  simp only [evaluateStep]
  by_cases h1 : JsNum.gtB (calculateFitness ops p.position ctx) p.bestFitness = true
  · rw [if_pos h1]
    by_cases h2 : JsNum.gtB (calculateFitness ops p.position ctx) acc.globalBestFitness = true
    · rw [if_pos h2]
      exact ⟨JsNum.gtB_ne_nan h2, JsNum.ltB_imp_leB h2⟩
    · rw [if_neg h2]
      exact ⟨h, JsNum.geB_refl h⟩
  · rw [if_neg h1]
    exact ⟨h, JsNum.geB_refl h⟩

/-- The evaluation pass over any particle list never decreases the global best
fitness and never makes it `NaN`. -/
theorem foldl_evaluateStep_gbf_mono (ops : MathOps) (ctx : OptimizationContext) :
    ∀ (l : List ParticleState) (acc : EvalAcc), acc.globalBestFitness ≠ JsNum.nan →
      ((l.foldl (evaluateStep ops ctx) acc).globalBestFitness ≠ JsNum.nan ∧
       JsNum.geB (l.foldl (evaluateStep ops ctx) acc).globalBestFitness
         acc.globalBestFitness = true) := by
  intro l
  induction l with
  | nil => intro acc h; exact ⟨h, JsNum.geB_refl h⟩
  | cons p t ih =>
    intro acc h
    rw [List.foldl_cons]
    have hstep := evaluateStep_gbf ops ctx acc p h
    have hrest := ih (evaluateStep ops ctx acc p) hstep.1
    exact ⟨hrest.1, JsNum.geB_trans hstep.2 hrest.2⟩

/-- `evaluateParticles` never decreases the global best fitness. -/
theorem evaluateParticles_gbf_mono (ops : MathOps) (s : MState)
    (h : s.opt.globalBestFitness ≠ JsNum.nan) :
    (evaluateParticles ops s).opt.globalBestFitness ≠ JsNum.nan ∧
    JsNum.geB (evaluateParticles ops s).opt.globalBestFitness
      s.opt.globalBestFitness = true := by
  simp only [evaluateParticles]
  exact foldl_evaluateStep_gbf_mono ops s.ctx s.opt.particles _ h

/-- A full loop iteration never decreases the global best fitness (the quantum
evolution and the particle update do not touch it). -/
theorem iterationBody_gbf_mono (ops : MathOps) (r : RandStream) (s : MState)
    (h : s.opt.globalBestFitness ≠ JsNum.nan) :
    (iterationBody ops r s).opt.globalBestFitness ≠ JsNum.nan ∧
    JsNum.geB (iterationBody ops r s).opt.globalBestFitness
      s.opt.globalBestFitness = true := by
  have := evaluateParticles_gbf_mono ops (updateParticles ops r (evolveQuantumStates ops r s))
    (by simpa using h)
  simpa [iterationBody] using this

/-- Along any fresh run, the global best fitness is never `NaN`: it starts at
`-Infinity` and is only ever overwritten by values that compare strictly
greater. -/
theorem stateAfter_gbf_ne_nan (ops : MathOps) (r : RandStream) (cfg : QuantumConfigIn)
    (ctx : OptimizationContext) :
    ∀ k, (stateAfter ops r cfg ctx k).opt.globalBestFitness ≠ JsNum.nan := by
  intro k
  induction k with
  | zero => simp [stateAfter, initState, construct]
  | succ k ih => exact (iterationBody_gbf_mono ops r _ ih).1

/- ----------------------------------------------------------------------
   The claims
   ---------------------------------------------------------------------- -/

/-- Claim C1 (code_bug evidence): for every context with at least one asset,
every configuration, every random stream and any `Math` primitives, the
allocation returned by a fresh `optimize` call is the EMPTY vector — its
elements do not sum to 1 — because `globalBestPosition` starts as `[]`, the
first `updateParticles` runs before any evaluation and reads
`globalBestPosition[j] = undefined`, so every velocity and position becomes
`NaN`, every fitness is `NaN`, and no best is ever written.  The claimed
property "every element in [0,1] and sum 1 within 1e-9" therefore fails on
every valid context. -/
theorem claim_C1_allocation_empty_not_normalized (ops : MathOps) (r : RandStream)
    (cfg : QuantumConfigIn) (ctx : OptimizationContext) (h : ctx.assets ≠ []) :
    (runOptimizer ops r cfg ctx).1.allocation = [] := by
  have hn : 1 ≤ ctx.assets.length := List.length_pos.mpr h
  have hinv := loopGo_dead ops r hn
    (loopFuel (initState ops r cfg ctx).opt.config.iterations) 0 JsNum.ninf
    (initState ops r cfg ctx) (initState_dead ops r cfg ctx)
  exact hinv.1

/-- Witness for C1 at a concrete valid context (one asset, non-degenerate
historical data, 1 particle, 2 iterations): the returned allocation is the
empty vector. -/
theorem claim_C1_allocation_empty_not_normalized_witness :
    (runOptimizer opsW randW cfgW ctxW).1.allocation = [] :=
  claim_C1_allocation_empty_not_normalized opsW randW cfgW ctxW (by simp [ctxW])

/-- Claim C2: the fitness computed by the code equals the specification's
formula — Sharpe ratio `(expectedReturn - 0.02) / portfolioVolatility` minus
the conditional penalties scaled by 100 — together with the component
identities for expected return and portfolio volatility, for every allocation
whose dimension matches the context's asset count. -/
theorem claim_C2_fitness_formula (ops : MathOps) (ctx : OptimizationContext)
    (w : List JsNum) (hw : w.length = ctx.assets.length) :
    calculateFitness ops w ctx = fitnessSpec ops ctx w ∧
    calculateExpectedReturn w ctx.historicalData.returns = expectedReturnSpec ctx w ∧
    calculatePortfolioVolatility ops w ctx.historicalData.volatility
      ctx.historicalData.correlation = portfolioVolatilitySpec ops ctx w :=
  ⟨calculateFitness_eq_spec ops ctx hw, calculateExpectedReturn_eq_spec ctx hw,
    calculatePortfolioVolatility_eq_spec ops ctx hw⟩

/-- Witness for C2 at a concrete input: a one-asset context and the allocation
`[1]`. -/
theorem claim_C2_fitness_formula_witness :
    calculateFitness opsW [JsNum.fin 1] ctxW = fitnessSpec opsW ctxW [JsNum.fin 1] ∧
    calculateExpectedReturn [JsNum.fin 1] ctxW.historicalData.returns =
      expectedReturnSpec ctxW [JsNum.fin 1] ∧
    calculatePortfolioVolatility opsW [JsNum.fin 1] ctxW.historicalData.volatility
      ctxW.historicalData.correlation = portfolioVolatilitySpec opsW ctxW [JsNum.fin 1] :=
  claim_C2_fitness_formula opsW ctxW [JsNum.fin 1] (by rfl)

/-- Claim C3: within one run, the global best fitness is non-decreasing from
iteration to iteration (JS `>=` holds between consecutive iterations' global
best fitness values, for every configuration, context and random stream). -/
theorem claim_C3_globalBestFitness_monotone (ops : MathOps) (r : RandStream)
    (cfg : QuantumConfigIn) (ctx : OptimizationContext) (k : ℕ) :
    JsNum.geB (stateAfter ops r cfg ctx (k + 1)).opt.globalBestFitness
      (stateAfter ops r cfg ctx k).opt.globalBestFitness = true :=
  (iterationBody_gbf_mono ops r _ (stateAfter_gbf_ne_nan ops r cfg ctx k)).2

/-- Claim C4: with the convergence threshold set to `Infinity` (and any
positive integer iteration cap, any particle count, any context with at least
one asset), the optimize loop executes exactly the configured number of
iterations. -/
theorem claim_C4_loop_exact_iterations (ops : MathOps) (r : RandStream)
    (cfg : QuantumConfigIn) (ctx : OptimizationContext) (cap : ℕ)
    (hiter : cfg.iterations = some (JsNum.fin (cap : ℚ))) (hcap : 1 ≤ cap)
    (_hthr : cfg.convergenceThreshold = some JsNum.pinf)
    (hassets : ctx.assets ≠ []) :
    (runOptimizer ops r cfg ctx).2.2 = cap := by
  have hn : 1 ≤ ctx.assets.length := List.length_pos.mpr hassets
  have hne : (cap : ℚ) ≠ 0 := Nat.cast_ne_zero.mpr (by omega)
  have hconf : (initState ops r cfg ctx).opt.config.iterations = JsNum.fin (cap : ℚ) := by
    show (construct cfg).config.iterations = _
    simp [construct, jsOr, hiter, hne]
  have hfuel : cap - 0 ≤ loopFuel (initState ops r cfg ctx).opt.config.iterations := by
    rw [hconf]
    simp [loopFuel]
  have hcount := loopGo_dead_count ops r hn
    (loopFuel (initState ops r cfg ctx).opt.config.iterations) 0
    (initState ops r cfg ctx) (initState_dead ops r cfg ctx) hconf hfuel
  calc (runOptimizer ops r cfg ctx).2.2 = cap - 0 := hcount
    _ = cap := by omega

/-- Witness for C4 at a concrete input: cap 2, threshold `Infinity`, one
particle, one asset — the loop runs exactly 2 iterations. -/
theorem claim_C4_loop_exact_iterations_witness :
    (runOptimizer opsW randW cfgWinf ctxW).2.2 = 2 :=
  claim_C4_loop_exact_iterations opsW randW cfgWinf ctxW 2 (by norm_num [cfgWinf])
    (by norm_num) rfl (by simp [ctxW])

/-- Claim C5 (code_bug evidence): on an allocation whose portfolio volatility
is 0 (the all-zero allocation), `calculateFitness` silently divides: the
Sharpe ratio evaluates to `-Infinity` (`(0 - 0.02) / 0`) and that value is
returned as the fitness — no `UndefinedMetric` error exists anywhere in the
code. -/
theorem claim_C5_zero_volatility_divides_silently :
    calculatePortfolioVolatility opsW [JsNum.fin 0] ctxZ.historicalData.volatility
      ctxZ.historicalData.correlation = JsNum.fin 0 ∧
    calculateFitness opsW [JsNum.fin 0] ctxZ = JsNum.ninf := by
  have hpv : calculatePortfolioVolatility opsW [JsNum.fin 0] ctxZ.historicalData.volatility
      ctxZ.historicalData.correlation = JsNum.fin 0 := by
    norm_num [calculatePortfolioVolatility, ctxZ, ctxW, jsGet, opsW, JsNum.sqrtJ,
      List.range_succ, JsNum.mul_def, JsNum.mul, JsNum.add_def, JsNum.add, JsNum.zero_def]
  refine ⟨hpv, ?_⟩
  have her : calculateExpectedReturn [JsNum.fin 0] ctxZ.historicalData.returns =
      JsNum.fin 0 := by
    norm_num [calculateExpectedReturn, ctxZ, ctxW, jsReduceAdd, JsNum.div_def, JsNum.div,
      JsNum.mul_def, JsNum.mul, JsNum.add_def, JsNum.add, JsNum.zero_def]
  rw [calculateFitness, her, hpv]
  norm_num [ctxZ, ctxW, JsNum.div_def, JsNum.div, JsNum.sub_def, JsNum.sub, JsNum.add_def,
    JsNum.add, JsNum.neg, JsNum.mul_def, JsNum.mul, JsNum.gtB, JsNum.ltB, JsNum.zero_def]

/-- Claim C6 (code_bug evidence): the constructor accepts a configuration
with negative particle count, zero iteration cap and negative convergence
threshold without any error: it stores `particles = -5` and
`convergenceThreshold = -1` unchanged and silently defaults the zero
iteration cap to 1000 — no `InvalidConfig` validation exists. -/
theorem claim_C6_constructor_no_validation :
    construct
      { particles := some (JsNum.fin (-5)), iterations := some (JsNum.fin 0),
        convergenceThreshold := some (JsNum.fin (-1)) } =
    { config :=
        { particles := JsNum.fin (-5), iterations := JsNum.fin 1000,
          convergenceThreshold := JsNum.fin (-1) },
      particles := [], quantumStates := [], globalBestPosition := [],
      globalBestFitness := JsNum.ninf } := by
  norm_num [construct, jsOr]
  exact ⟨fun h => JsNum.noConfusion h, fun h => JsNum.noConfusion h⟩

/-- Claim C7: the sequential per-particle evaluation pass equals the snapshot
semantics in which every particle's fitness is computed first (from the
pre-iteration positions) and the best-tracking updates are then folded in —
a particle's fitness never reads the bests, so interleaving is immaterial. -/
theorem claim_C7_evaluate_equals_snapshot (ops : MathOps) (s : MState) :
    evaluateParticles ops s = evaluateParticlesSnapshot ops s := by
  simp only [evaluateParticles, evaluateParticlesSnapshot]
  rw [foldl_evaluateStep_eq_pre]

/-- Claim C8: quantum evolution is a rotation — it preserves every finite
state's amplitude magnitude `sqrt(real² + imaginary²)` — and therefore the
confidence reported by `calculateConfidence` after any number of iterations
equals the confidence of the freshly initialized grid: it is fully determined
by the initial random amplitudes. (The two analytic hypotheses are the
Pythagorean identity for the runtime's `cos`/`sin` and `Math.PI ≠ 0`.) -/
theorem claim_C8_evolution_preserves_magnitude (ops : MathOps)
    (hpyth : ∀ x, ops.cos x ^ 2 + ops.sin x ^ 2 = 1) (hpi : ops.pi ≠ 0) :
    (∀ (u : ℚ) (st : QuantumState), FiniteQ st →
      ampMagnitude ops (evolveOneQuantumState ops u st).amplitude =
        ampMagnitude ops st.amplitude) ∧
    (∀ (r : RandStream) (cfg : QuantumConfigIn) (ctx : OptimizationContext) (k : ℕ),
      calculateConfidence ops (stateAfter ops r cfg ctx k).opt.quantumStates =
        calculateConfidence ops (initState ops r cfg ctx).opt.quantumStates) := by
  constructor
  · intro u st h
    exact (evolveOne_finite_magnitude ops hpyth hpi u st h).2
  · intro r cfg ctx k
    induction k with
    | zero => rfl
    | succ k ih =>
      have hqs : (stateAfter ops r cfg ctx (k + 1)).opt.quantumStates =
          (evolveRows ops r (stateAfter ops r cfg ctx k).opt.quantumStates
            (stateAfter ops r cfg ctx k).cursor).1 := rfl
      rw [hqs, calculateConfidence_evolve ops hpyth hpi r _ _
        (stateAfter_grid_finite ops hpyth hpi r cfg ctx k)]
      exact ih

/-- Witness for C8 at a concrete input: with concrete admissible `Math`
primitives, the confidence after 2 iterations equals the initial one. -/
theorem claim_C8_evolution_preserves_magnitude_witness :
    calculateConfidence opsW (stateAfter opsW randW cfgW ctxW 2).opt.quantumStates =
      calculateConfidence opsW (initState opsW randW cfgW ctxW).opt.quantumStates :=
  (claim_C8_evolution_preserves_magnitude opsW (by intro x; norm_num [opsW])
    (by norm_num [opsW])).2 randW cfgW ctxW 2

/-- Claim C9: an `optimize` call never modifies its input context — the
assets, constraints, market regime and historical data it returns with are
the ones it was given; all mutation is confined to the optimizer's own
fields, which the machine state separates from the context. -/
theorem claim_C9_optimize_never_mutates_context (ops : MathOps) (r : RandStream)
    (s : MState) : (optimize ops r s).2.1.ctx = s.ctx :=
  optimize_ctx ops r s

/-- Claim C10: a zero config field and an absent config field are
indistinguishable — both are `||`-falsy and produce the defaults (100, 1000,
1e-6) — while a negative value is truthy and is stored unchanged, for each of
the three fields. -/
theorem claim_C10_zero_config_equals_absent :
    construct
      { particles := some (JsNum.fin 0), iterations := some (JsNum.fin 0),
        convergenceThreshold := some (JsNum.fin 0) } =
    construct { particles := none, iterations := none, convergenceThreshold := none } ∧
    ∀ q : ℚ, q < 0 →
      (construct
        { particles := some (JsNum.fin q), iterations := none, convergenceThreshold := none }).config.particles = JsNum.fin q ∧
      (construct
        { particles := none, iterations := some (JsNum.fin q), convergenceThreshold := none }).config.iterations = JsNum.fin q ∧
      (construct
        { particles := none, iterations := none, convergenceThreshold := some (JsNum.fin q) }).config.convergenceThreshold = JsNum.fin q := by
  constructor
  · rfl
  · intro q hq
    have hne : q ≠ 0 := ne_of_lt hq
    refine ⟨?_, ?_, ?_⟩ <;> simp [construct, jsOr, hne]

/-- Witness for C10 at a concrete input: `-1` is stored unchanged in the
particles field. -/
theorem claim_C10_zero_config_equals_absent_witness :
    (construct
      { particles := some (JsNum.fin (-1)), iterations := none, convergenceThreshold := none }).config.particles = JsNum.fin (-1) :=
  (claim_C10_zero_config_equals_absent.2 (-1) (by norm_num)).1
